import Mathlib

/-!
Verification of the order lifecycle and role-gated request pipeline of the
restaurant ordering platform: JWT-gated admin middleware (authenticate, role
gate, sliding-window rate limit), order status updates, order listing with
pagination, top-items analytics and the notification counter, together with
the checkout payload built by the customer order modal.

Conventions of the shallow embedding: JS numbers that hold money are `Int` (every handler verified here only adds, multiplies and compares amounts, and every claim input is integral, so the embedding is exact),
timestamps (milliseconds since epoch) are `Int`, identifiers and counts are
`Nat`; a JS value that may be `null`/`undefined` is an `Option`; an express
handler is a pure function from its inputs (request data, database contents,
clock) to a result value, with the database threaded explicitly.
-/

namespace Change

/-! Data model: order line-item snapshots and orders, mirroring the fields of
the Order model that the verified handlers read or write. -/

structure OrderItem where
  id : Nat
  name : String
  price : Int
  quantity : Nat
deriving Repr, DecidableEq

structure Order where
  id : Nat
  userId : Option Nat
  items : List OrderItem
  totalAmount : Int
  status : String
  orderType : String
  tableNumber : Option String
  deliveryAddress : Option String
  customerName : String
  customerPhone : String
  orderNotes : String
  createdAt : Int
  updatedAt : Int
deriving Repr, DecidableEq

/-! Rate limiter (middleware/adminAuth.js, adminRateLimit). The closure keeps
a Map from admin id to the list of request timestamps; we model the Map as an
association list in insertion order, with Map.get defaulting to the empty
history and Map.set replacing in place (or appending a fresh entry). -/

abbrev RLState := List (Nat × List Int)

def rlLookup (s : RLState) (id : Nat) : List Int :=
  match s.find? (fun e => e.fst == id) with
  | some e => e.snd
  | none => []

def rlSet (s : RLState) (id : Nat) (ts : List Int) : RLState :=
  if s.any (fun e => e.fst == id) then
    s.map (fun e => if e.fst == id then (id, ts) else e)
  else
    s ++ [(id, ts)]

inductive RLResult where
  | next
  | rateLimited
deriving Repr, DecidableEq

/-- One request through the adminRateLimit middleware: requests without an
authenticated admin id bypass the limiter; otherwise timestamps at or before
now − windowMs are dropped, the request is refused when the remaining count
reaches maxRequests, and the current time is appended otherwise. -/
def adminRateLimit (maxRequests : Nat) (windowMs : Int) (state : RLState)
    (adminId : Option Nat) (now : Int) : RLResult × RLState :=
  match adminId with
  | none => (.next, state)
  | some id =>
    let windowStart := now - windowMs
    let adminRequests := rlLookup state id
    let validRequests := adminRequests.filter (fun t => decide (windowStart < t))
    if maxRequests ≤ validRequests.length then
      (.rateLimited, rlSet state id validRequests)
    else
      (.next, rlSet state id (validRequests ++ [now]))

/-! Access control middleware (middleware/adminAuth.js, authenticateAdmin and
requireRole). The JWT library and the Admin table are external collaborators:
token verification is an abstract function returning the decoded claims or
none (any thrown verification error), and the Admin lookup is an abstract
function from primary key to an optional row. An empty string is falsy in JS,
so the presence checks treat some "" like none. -/

structure Admin where
  id : Nat
  username : String
  email : String
  password : String
  role : String
  isActive : Bool
deriving Repr, DecidableEq

/-- Identity attached to the request context by authenticateAdmin: exactly the
five fields copied from the Admin row, with no password field at all. -/
structure ReqAdmin where
  id : Nat
  username : String
  email : String
  role : String
  isActive : Bool
deriving Repr, DecidableEq

def sanitizeAdmin (a : Admin) : ReqAdmin :=
  { id := a.id, username := a.username, email := a.email,
    role := a.role, isActive := a.isActive }

structure JwtClaims where
  id : Nat
deriving Repr, DecidableEq

inductive AuthOutcome where
  | unauthenticated (msg : String)
  | serverError (msg : String)
  | ok (admin : ReqAdmin)
deriving Repr, DecidableEq

def AuthOutcome.isUnauthed : AuthOutcome → Bool
  | .unauthenticated _ => true
  | _ => false

/-- Falsy test for an optional JS string: absent or empty. -/
def strFalsy : Option String → Bool
  | none => true
  | some s => s == ""

/-- The authenticateAdmin middleware: token presence, secret presence, token
verification, admin lookup and active check, in source order; on success the
sanitized identity is attached. -/
def authenticateAdmin (token : Option String) (jwtSecret : Option String)
    (verify : String → String → Option JwtClaims)
    (findAdminByPk : Nat → Option Admin) : AuthOutcome :=
  match token with
  | none => .unauthenticated "Access denied. No token provided."
  | some tok =>
    if tok == "" then .unauthenticated "Access denied. No token provided."
    else
      match jwtSecret with
      | none => .serverError "Server configuration error"
      | some secret =>
        if secret == "" then .serverError "Server configuration error"
        else
          match verify tok secret with
          | none => .unauthenticated "Invalid token."
          | some decoded =>
            match findAdminByPk decoded.id with
            | none => .unauthenticated "Invalid token or admin not active."
            | some admin =>
              if admin.isActive then .ok (sanitizeAdmin admin)
              else .unauthenticated "Invalid token or admin not active."

/-! Role gate (requireRole). Both the required roles and the identity's role
field may be a single value or an array in the source; RoleSpec captures the
two shapes and toList is the Array.isArray normalization. -/

inductive RoleSpec where
  | one (r : String)
  | many (rs : List String)
deriving Repr, DecidableEq

def RoleSpec.toList : RoleSpec → List String
  | .one r => [r]
  | .many rs => rs

inductive GateOutcome where
  | unauthenticated (msg : String)
  | forbidden (msg : String)
  | next
deriving Repr, DecidableEq

/-- The requireRole middleware reads only req.admin presence and its role
field, so it takes the role field of the attached identity (none when no
identity was attached by the authentication stage). The Admin model stores a
single role string, hence the context normally carries RoleSpec.one of it,
but the gate handles both shapes exactly as the source normalizes them. -/
def requireRole (roles : RoleSpec) (reqAdminRole : Option RoleSpec) :
    GateOutcome :=
  match reqAdminRole with
  | none => .unauthenticated "Authentication required."
  | some roleField =>
    let userRoles := roleField.toList
    let requiredRoles := roles.toList
    if requiredRoles.any (fun role => userRoles.contains role) then .next
    else .forbidden "Insufficient permissions."

/-! Order status update (adminController.js, updateOrderStatus). The orders
table is a list of rows; findByPk returns the first row with the given id and
save writes the row back in place. Sequelize stamps updatedAt on save, which
we model by passing the clock in. -/

abbrev OrderDb := List Order

def findOrderByPk (db : OrderDb) (id : Nat) : Option Order :=
  db.find? (fun o => o.id == id)

def saveOrder (db : OrderDb) (o : Order) : OrderDb :=
  db.map (fun x => if x.id == o.id then o else x)

inductive UpdateStatusResult where
  | notFound
  | okUpdated (id : Nat) (status : String)
deriving Repr, DecidableEq

/-- The updateOrderStatus handler: load by primary key, 404 when absent,
otherwise set the status field unconditionally, save (refreshing updatedAt)
and answer with the order id and its new status. -/
def updateOrderStatus (db : OrderDb) (id : Nat) (status : String) (now : Int) :
    UpdateStatusResult × OrderDb :=
  match findOrderByPk db id with
  | none => (.notFound, db)
  | some order =>
    let updated := { order with status := status, updatedAt := now }
    (.okUpdated updated.id updated.status, saveOrder db updated)

/-! Notification count (adminController.js, getNotificationCount). Counts
pending orders plus recent orders of the last 24 hours, the latter capped at
five; a falsy admin id (JS 0 or undefined, here 0) answers 401. -/

def pendingOrdersCount (db : OrderDb) : Nat :=
  (db.filter (fun o => o.status == "pending")).length

def recentOrdersCount (db : OrderDb) (now : Int) : Nat :=
  (db.filter (fun o => decide (now - 24 * 60 * 60 * 1000 ≤ o.createdAt))).length

structure NotificationCount where
  count : Nat
  pendingOrders : Nat
  recentOrders : Nat
deriving Repr, DecidableEq

inductive NotifResult where
  | authError (msg : String)
  | ok (c : NotificationCount)
deriving Repr, DecidableEq

def getNotificationCount (db : OrderDb) (adminId : Nat) (now : Int) :
    NotifResult :=
  if adminId == 0 then .authError "Authentication error"
  else
    let pending := pendingOrdersCount db
    let recent := recentOrdersCount db now
    let totalNotifications := pending + min recent 5
    .ok { count := totalNotifications, pendingOrders := pending,
          recentOrders := recent }

/-! Shared query helpers: JS parseInt on decimal strings, SQL ORDER BY as a
stable sort (Array.prototype.sort with a b.key − a.key comparator is likewise
the stable descending order, so both reuse List.insertionSort), slice, and
ILIKE pattern matching as case-insensitive substring search. -/

def digitsToNat (cs : List Char) : Nat :=
  cs.foldl (fun a c => 10 * a + (c.toNat - 48)) 0

/-- Result of parseInt(s, 10) on a string without leading blanks: an optional
sign followed by leading decimal digits; none is NaN. -/
def jsParseInt (s : String) : Option Int :=
  match s.toList with
  | '-' :: rest =>
    let ds := rest.takeWhile Char.isDigit
    if ds.isEmpty then none else some (-(digitsToNat ds : Int))
  | '+' :: rest =>
    let ds := rest.takeWhile Char.isDigit
    if ds.isEmpty then none else some (digitsToNat ds : Int)
  | cs =>
    let ds := cs.takeWhile Char.isDigit
    if ds.isEmpty then none else some (digitsToNat ds : Int)

/-- Result of Array.prototype.slice(0, e): a negative end counts back from the
end of the array. -/
def jsSliceTo {α : Type} (l : List α) (e : Int) : List α :=
  if e < 0 then l.take (Int.toNat ((l.length : Int) + e)) else l.take e.toNat

/-- Character-list match at the head: pat read off at the start of hay. -/
def leadMatch : List Char → List Char → Bool
  | [], _ => true
  | _ :: _, [] => false
  | p :: ps, h :: hs => p == h && leadMatch ps hs

/-- Substring search: pat occurs contiguously somewhere in hay. -/
def subSearch (pat : List Char) : List Char → Bool
  | [] => pat.isEmpty
  | h :: hs => leadMatch pat (h :: hs) || subSearch pat hs

/-- Case-insensitive containment, the semantics of ILIKE with the search text
wrapped in percent wildcards. -/
def containsCI (hay pat : String) : Bool :=
  subSearch pat.toLower.toList hay.toLower.toList

inductive SortKey where
  | createdAt
  | totalAmount
  | id
deriving Repr, DecidableEq

inductive SortDir where
  | asc
  | desc
deriving Repr, DecidableEq

def orderKey (k : SortKey) (o : Order) : Int :=
  match k with
  | .createdAt => (o.createdAt : Int)
  | .totalAmount => o.totalAmount
  | .id => (o.id : Int)

def orderRel (k : SortKey) (d : SortDir) (a b : Order) : Prop :=
  match d with
  | .asc => orderKey k a ≤ orderKey k b
  | .desc => orderKey k b ≤ orderKey k a

instance (k : SortKey) (d : SortDir) : DecidableRel (orderRel k d) :=
  fun a b =>
    match d with
    | .asc => inferInstanceAs (Decidable (orderKey k a ≤ orderKey k b))
    | .desc => inferInstanceAs (Decidable (orderKey k b ≤ orderKey k a))

instance (k : SortKey) (d : SortDir) : IsTotal Order (orderRel k d) where
  total a b := by cases d <;> exact le_total _ _

instance (k : SortKey) (d : SortDir) : IsTrans Order (orderRel k d) where
  trans a b c := by
    cases d
    · exact fun h1 h2 => le_trans h1 h2
    · exact fun h1 h2 => le_trans h2 h1

/-! Filtered order listing (adminController.js, getOrdersWithFilters). The
conditionally built whereClause becomes a Bool predicate over a row; findAll
applies the where, the ORDER BY, then OFFSET and LIMIT, and count reuses the
same where for the total. -/

structure OrderFilters where
  status : Option String
  orderType : Option String
  dateFrom : Option Int
  dateTo : Option Int
  search : Option String
deriving Repr, DecidableEq

def matchesOrderFilters (f : OrderFilters) (o : Order) : Bool :=
  (match f.status with
   | some s => if s == "" || s == "all" then true else o.status == s
   | none => true)
  && (match f.orderType with
   | some s => if s == "" || s == "all" then true else o.orderType == s
   | none => true)
  && (match f.dateFrom with
   | some d => decide (d ≤ o.createdAt)
   | none => true)
  && (match f.dateTo with
   | some d => decide (o.createdAt ≤ d)
   | none => true)
  && (match f.search with
   | some s =>
     if s == "" then true
     else containsCI o.customerName s || containsCI o.customerPhone s
       || ((o.id : Int) == (jsParseInt s).getD 0)
   | none => true)

structure OrdersPage where
  orders : List Order
  total : Nat
  limit : Nat
  offset : Nat
  hasMore : Bool
deriving Repr, DecidableEq

def getOrdersWithFilters (db : OrderDb) (f : OrderFilters) (k : SortKey)
    (d : SortDir) (limit offset : Nat) : OrdersPage :=
  let matching := db.filter (matchesOrderFilters f)
  let sorted := List.insertionSort (orderRel k d) matching
  let page := (sorted.drop offset).take limit
  let total := matching.length
  { orders := page, total := total, limit := limit, offset := offset,
    hasMore := decide (offset + limit < total) }

/-! Top ordered items (adminController.js, getTopItems). Query parameters
arrive as optional strings with the destructuring defaults "7", "delivered",
"quantity" and "5"; the limit is parseInt with a fallback of 5 on NaN or 0,
capped by Math.min at 50; orders are fetched newest first; a JS Map keyed by
item id accumulates quantity and revenue in insertion order; Array.from of it
is sorted by the chosen rank key descending (stable) and sliced. -/

structure ItemAgg where
  id : Nat
  name : String
  totalQuantity : Nat
  totalRevenue : Int
deriving Repr, DecidableEq

/-- Fresh aggregate entry with zero totals, with the name fallback of the
source (an empty falsy name becomes "Item " followed by the id). -/
def aggNew0 (it : OrderItem) : ItemAgg :=
  { id := it.id,
    name := if it.name == "" then "Item " ++ toString it.id else it.name,
    totalQuantity := 0,
    totalRevenue := 0 }

/-- Adding one line item's quantity and quantity × price to an entry. -/
def aggBump (a : ItemAgg) (it : OrderItem) : ItemAgg :=
  { a with
    totalQuantity := a.totalQuantity + it.quantity,
    totalRevenue := a.totalRevenue + (it.quantity : Int) * it.price }

/-- One line item folded into the aggregate map: ensure the entry exists with
zero totals (keeping Map insertion order), then add quantity and
quantity × price to it. -/
def aggInsert (aggs : List ItemAgg) (it : OrderItem) : List ItemAgg :=
  let base :=
    if aggs.any (fun a => a.id == it.id) then aggs
    else aggs ++ [aggNew0 it]
  base.map (fun a => if a.id == it.id then aggBump a it else a)

def aggregateOrders (orders : List Order) : List ItemAgg :=
  orders.foldl (fun aggs o => o.items.foldl aggInsert aggs) []

def rankKey (rankBy : String) (a : ItemAgg) : Int :=
  if rankBy == "revenue" then a.totalRevenue else (a.totalQuantity : Int)

def rankRel (rankBy : String) (a b : ItemAgg) : Prop :=
  rankKey rankBy b ≤ rankKey rankBy a

instance (rankBy : String) : DecidableRel (rankRel rankBy) :=
  fun a b => inferInstanceAs (Decidable (rankKey rankBy b ≤ rankKey rankBy a))

instance (rankBy : String) : IsTotal ItemAgg (rankRel rankBy) where
  total _ _ := le_total _ _

instance (rankBy : String) : IsTrans ItemAgg (rankRel rankBy) where
  trans _ _ _ h1 h2 := le_trans h2 h1

/-- Effective slice bound of getTopItems: parseInt of the limit parameter with
NaN and 0 falling back to 5, then Math.min with the hard cap 50. -/
def topItemsLim (limitStr : String) : Int :=
  min (match jsParseInt limitStr with
       | some n => if n = 0 then 5 else n
       | none => 5) 50

/-- Where clause of getTopItems: createdAt within the last daysNum days when
daysNum parses positive, and the status filter unless it is "all" (or empty,
which is falsy). -/
def topItemsWhere (daysStr status : String) (now : Int) (o : Order) : Bool :=
  (match jsParseInt daysStr with
   | some d => if 0 < d then decide (now - d * 24 * 60 * 60 * 1000 ≤ o.createdAt)
               else true
   | none => true)
  && (if status == "" || status == "all" then true else o.status == status)

def getTopItems (db : OrderDb)
    (daysParam statusParam rankByParam limitParam : Option String)
    (now : Int) : List ItemAgg :=
  let days := daysParam.getD "7"
  let status := statusParam.getD "delivered"
  let rankBy := rankByParam.getD "quantity"
  let limit := limitParam.getD "5"
  let lim := topItemsLim limit
  let fetched := List.insertionSort (orderRel .createdAt .desc)
    (db.filter (topItemsWhere days status now))
  let itemsArr := aggregateOrders fetched
  let sorted := List.insertionSort (rankRel rankBy) itemsArr
  jsSliceTo sorted lim

/-! Checkout payload (components/OrderModal.tsx, handleSubmit). The modal
builds the POST /user/orders body from the cart once the user token, the
profile name and the table number are all present (and non-empty, JS
truthiness); the line items snapshot id, name, price, quantity and emoji, and
totalAmount is the reduce over the cart of the converted price times
quantity. -/

structure CartItem where
  id : Nat
  name : String
  price : Int
  quantity : Nat
  emoji : String
deriving Repr, DecidableEq

/-- Modelled from the spec: convertToRWF from utils/currency, imported by the
order modal but absent from the sources. The spec's order data model and its
creation invariant track a single currency unit end to end — totalAmount is
defined directly as the sum of snapshotted line-item price times quantity, and
the line items copy the cart price unchanged — so the conversion the checkout
total applies to a price already in that unit is the identity. -/
def convertToRWF (price : Int) : Int := price

structure PayloadItem where
  id : Nat
  name : String
  price : Int
  quantity : Nat
  emoji : String
deriving Repr, DecidableEq

structure OrderPayload where
  items : List PayloadItem
  totalAmount : Int
  customerName : String
  customerPhone : String
  tableNumber : String
  orderNotes : String
  orderType : String
deriving Repr, DecidableEq

structure UserData where
  name : String
  phone : Option String
deriving Repr, DecidableEq

def cartTotal (cartItems : List CartItem) : Int :=
  cartItems.foldl
    (fun sum item => sum + convertToRWF item.price * (item.quantity : Int)) 0

def handleSubmit (userToken : Option String) (userData : Option UserData)
    (tableNumber : Option String) (cartItems : List CartItem)
    (orderNotes : String) : Option OrderPayload :=
  match userToken, userData, tableNumber with
  | some tok, some u, some t =>
    if tok == "" || u.name == "" || t == "" then none
    else some
      { items := cartItems.map (fun item =>
          { id := item.id, name := item.name, price := item.price,
            quantity := item.quantity, emoji := item.emoji }),
        totalAmount := cartTotal cartItems,
        customerName := u.name,
        customerPhone := u.phone.getD "",
        tableNumber := t,
        orderNotes := orderNotes,
        orderType := "dine-in" }
  | _, _, _ => none

/-! Menu catalog rows and the effect of a later price update on stored orders:
the update touches only menu_items rows, never the snapshot columns of
orders. -/

structure MenuItem where
  id : Nat
  name : String
  description : String
  price : Int
  category : String
  isAvailable : Bool
  updatedAt : Int
deriving Repr, DecidableEq

structure AppState where
  menuItems : List MenuItem
  orders : OrderDb
deriving Repr, DecidableEq

def updateMenuItemPrice (s : AppState) (menuItemId : Nat) (newPrice : Int)
    (now : Int) : AppState :=
  { s with
    menuItems := s.menuItems.map (fun m =>
      if m.id == menuItemId then { m with price := newPrice, updatedAt := now }
      else m) }

/-! Theorems, one per claim, with shared helper lemmas first. -/

/-- Claim C2. Sliding-window rate limiter: on each identified request the
recorded timestamps at or before now − windowMs are discarded; when the
surviving count has reached maxRequests the request is refused and no
timestamp is recorded (the stored history is exactly the trimmed one);
otherwise now is appended and the request continues. Unidentified requests
bypass the limiter. With maxRequests 3 and windowMs 1000, three requests in
one window succeed, the fourth is rate limited, and once the window has
elapsed a later request succeeds again. -/
theorem adminRateLimit_sliding_window :
    (∀ (maxRequests : Nat) (windowMs : Int) (state : RLState) (id : Nat)
       (now : Int),
      (maxRequests ≤
          ((rlLookup state id).filter (fun t => decide (now - windowMs < t))).length →
        adminRateLimit maxRequests windowMs state (some id) now =
          (.rateLimited, rlSet state id
            ((rlLookup state id).filter (fun t => decide (now - windowMs < t))))) ∧
      (((rlLookup state id).filter (fun t => decide (now - windowMs < t))).length <
          maxRequests →
        adminRateLimit maxRequests windowMs state (some id) now =
          (.next, rlSet state id
            ((rlLookup state id).filter (fun t => decide (now - windowMs < t)) ++
              [now])))) ∧
    (∀ (maxRequests : Nat) (windowMs now : Int) (state : RLState),
      adminRateLimit maxRequests windowMs state none now = (.next, state)) ∧
    (adminRateLimit 3 1000 [] (some 7) 0 = (.next, [(7, [0])]) ∧
     adminRateLimit 3 1000 [(7, [0])] (some 7) 100 = (.next, [(7, [0, 100])]) ∧
     adminRateLimit 3 1000 [(7, [0, 100])] (some 7) 200 =
       (.next, [(7, [0, 100, 200])]) ∧
     adminRateLimit 3 1000 [(7, [0, 100, 200])] (some 7) 300 =
       (.rateLimited, [(7, [0, 100, 200])]) ∧
     adminRateLimit 3 1000 [(7, [0, 100, 200])] (some 7) 1500 =
       (.next, [(7, [1500])])) := by
  refine ⟨?_, ?_, ?_⟩
  · intro maxRequests windowMs state id now
    constructor
    · intro h
      simp only [adminRateLimit]
      rw [if_pos h]
    · intro h
      simp only [adminRateLimit]
      rw [if_neg (by omega)]
  · intro maxRequests windowMs now state
    rfl
  · decide

/-- Witness for C2 at the concrete fourth request of the scenario. -/
theorem adminRateLimit_sliding_window_witness :
    adminRateLimit 3 1000 [(7, [0, 100, 200])] (some 7) 300 =
      (.rateLimited, rlSet [(7, [0, 100, 200])] 7
        ((rlLookup [(7, [0, 100, 200])] 7).filter
          (fun t => decide ((300 : Int) - 1000 < t)))) :=
  (adminRateLimit_sliding_window.1 3 1000 [(7, [0, 100, 200])] 7 300).1
    (by decide)

/-- Claim C3. Authentication middleware contract: a missing (or empty, hence
falsy) bearer token, any token verification failure, and a missing or inactive
admin row all answer Unauthenticated; the 500 misconfiguration answer happens
exactly when a token was supplied but the signing secret is unset, the header
check coming first; and on success the request context receives exactly
sanitizeAdmin of the row — a ReqAdmin, a structure that has no password field
at all. -/
theorem authenticateAdmin_contract
    (token jwtSecret : Option String)
    (verify : String → String → Option JwtClaims)
    (findAdminByPk : Nat → Option Admin) :
    (strFalsy token = true →
      (authenticateAdmin token jwtSecret verify findAdminByPk).isUnauthed =
        true) ∧
    ((∃ m, authenticateAdmin token jwtSecret verify findAdminByPk =
        .serverError m) ↔
      strFalsy token = false ∧ strFalsy jwtSecret = true) ∧
    (∀ tok secret, token = some tok → jwtSecret = some secret →
      strFalsy token = false → strFalsy jwtSecret = false →
      ((verify tok secret = none →
         authenticateAdmin token jwtSecret verify findAdminByPk =
           .unauthenticated "Invalid token.") ∧
       (∀ c, verify tok secret = some c → findAdminByPk c.id = none →
         authenticateAdmin token jwtSecret verify findAdminByPk =
           .unauthenticated "Invalid token or admin not active.") ∧
       (∀ c a, verify tok secret = some c → findAdminByPk c.id = some a →
         a.isActive = false →
         authenticateAdmin token jwtSecret verify findAdminByPk =
           .unauthenticated "Invalid token or admin not active.") ∧
       (∀ c a, verify tok secret = some c → findAdminByPk c.id = some a →
         a.isActive = true →
         authenticateAdmin token jwtSecret verify findAdminByPk =
           .ok (sanitizeAdmin a)))) := by
  refine ⟨?_, ?_, ?_⟩
  · intro h
    match token with
    | none => rfl
    | some tok =>
      have htok : (tok == "") = true := by simpa [strFalsy] using h
      simp [authenticateAdmin, htok, AuthOutcome.isUnauthed]
  · constructor
    · rintro ⟨m, hm⟩
      match token with
      | none => simp [authenticateAdmin] at hm
      | some tok =>
        by_cases htok : (tok == "") = true
        · simp [authenticateAdmin, htok] at hm
        · have htok2 : (tok == "") = false := by simpa using htok
          refine ⟨by simpa [strFalsy] using htok2, ?_⟩
          match jwtSecret with
          | none => simp [strFalsy]
          | some secret =>
            by_cases hsec : (secret == "") = true
            · simpa [strFalsy] using hsec
            · exfalso
              have hsec2 : (secret == "") = false := by simpa using hsec
              cases hv : verify tok secret with
              | none => simp [authenticateAdmin, htok2, hsec2, hv] at hm
              | some c =>
                cases hf : findAdminByPk c.id with
                | none => simp [authenticateAdmin, htok2, hsec2, hv, hf] at hm
                | some a =>
                  by_cases ha : a.isActive = true
                  · simp [authenticateAdmin, htok2, hsec2, hv, hf, ha] at hm
                  · simp [authenticateAdmin, htok2, hsec2, hv, hf, ha] at hm
    · rintro ⟨h1, h2⟩
      match token with
      | none => simp [strFalsy] at h1
      | some tok =>
        have htok : (tok == "") = false := by simpa [strFalsy] using h1
        match jwtSecret with
        | none =>
          exact ⟨"Server configuration error", by simp [authenticateAdmin, htok]⟩
        | some secret =>
          have hsec : (secret == "") = true := by simpa [strFalsy] using h2
          exact ⟨"Server configuration error",
            by simp [authenticateAdmin, htok, hsec]⟩
  · intro tok secret htk hsk h1 h2
    subst htk; subst hsk
    have htok : (tok == "") = false := by simpa [strFalsy] using h1
    have hsec : (secret == "") = false := by simpa [strFalsy] using h2
    refine ⟨?_, ?_, ?_, ?_⟩
    · intro hv
      simp [authenticateAdmin, htok, hsec, hv]
    · intro c hv hf
      simp [authenticateAdmin, htok, hsec, hv, hf]
    · intro c a hv hf ha
      simp [authenticateAdmin, htok, hsec, hv, hf, ha]
    · intro c a hv hf ha
      simp [authenticateAdmin, htok, hsec, hv, hf, ha]

/-- Witness for C3: a concrete active admin, verifying token and configured
secret pass authentication and attach the sanitized identity. -/
theorem authenticateAdmin_contract_witness :
    authenticateAdmin (some "tk") (some "sec")
      (fun _ _ => some { id := 4 })
      (fun i => if i = 4 then
          some { id := 4, username := "root", email := "r@x", password := "h",
                 role := "super_admin", isActive := true }
        else none) =
      .ok (sanitizeAdmin
        { id := 4, username := "root", email := "r@x", password := "h",
          role := "super_admin", isActive := true }) :=
  ((authenticateAdmin_contract (some "tk") (some "sec")
      (fun _ _ => some { id := 4 })
      (fun i => if i = 4 then
          some { id := 4, username := "root", email := "r@x", password := "h",
                 role := "super_admin", isActive := true }
        else none)).2.2 "tk" "sec" rfl rfl (by decide) (by decide)).2.2.2
    { id := 4 }
    { id := 4, username := "root", email := "r@x", password := "h",
      role := "super_admin", isActive := true }
    rfl (by decide) rfl

/-- Claim C7. Role gate: with no identity attached the request is rejected
(with the 401 authentication answer, never passed through); with an identity
attached it is forbidden exactly when the required role set and the identity's
role list share no element, and continues exactly when they share one. -/
theorem requireRole_gate (roles : RoleSpec) :
    (requireRole roles none = .unauthenticated "Authentication required.") ∧
    (∀ roleField : RoleSpec,
      (requireRole roles (some roleField) = .forbidden "Insufficient permissions."
        ↔ ∀ r ∈ roles.toList, r ∉ roleField.toList) ∧
      (requireRole roles (some roleField) = .next
        ↔ ∃ r ∈ roles.toList, r ∈ roleField.toList)) := by
  refine ⟨rfl, ?_⟩
  intro roleField
  constructor
  · simp [requireRole, List.contains, List.elem_iff]
  · simp [requireRole, List.contains, List.elem_iff]

/-- Witness for C7: an admin-role identity fails a super-admin-gated check
with Forbidden, and a super-admin identity passes it. -/
theorem requireRole_gate_witness :
    requireRole (.one "super_admin") (some (.one "admin")) =
      .forbidden "Insufficient permissions." ∧
    requireRole (.one "super_admin") (some (.one "super_admin")) = .next :=
  ⟨((requireRole_gate (.one "super_admin")).2 (.one "admin")).1.mpr (by decide),
   ((requireRole_gate (.one "super_admin")).2 (.one "super_admin")).2.mpr
     (by decide)⟩

/-- A map that leaves the predicate invariant commutes with find?. -/
lemma find?_map_invariant {α : Type} (p : α → Bool) (f : α → α)
    (hf : ∀ a, p (f a) = p a) : ∀ l : List α,
    (l.map f).find? p = (l.find? p).map f := by
  intro l
  induction l with
  | nil => rfl
  | cons a l ih =>
    by_cases h : p a = true
    · rw [List.map_cons, List.find?_cons_of_pos _ (by rw [hf]; exact h),
        List.find?_cons_of_pos _ h]
      rfl
    · rw [List.map_cons, List.find?_cons_of_neg _ (by rw [hf]; exact h),
        List.find?_cons_of_neg _ h, ih]

/-- Saving a row with the looked-up id makes the next lookup return it. -/
lemma findOrderByPk_saveOrder (db : OrderDb) (id : Nat) (o u : Order)
    (ho : findOrderByPk db id = some o) (hu : u.id = id) :
    findOrderByPk (saveOrder db u) id = some u := by
  have hoid : o.id = id := by
    have := List.find?_some ho
    simpa using this
  have hf : ∀ x : Order,
      ((if x.id == u.id then u else x).id == id) = (x.id == id) := by
    intro x
    by_cases hx : x.id = u.id
    · simp [hx, hu]
    · simp [hx]
  unfold findOrderByPk saveOrder
  rw [find?_map_invariant _ _ hf]
  unfold findOrderByPk at ho
  rw [ho]
  have : (o.id == u.id) = true := by simp [hoid, hu]
  simp [Option.map, this]

/-- Success case of updateOrderStatus: the answer carries the id and the new
status, and the stored row is the loaded row with only status and updatedAt
changed. -/
lemma updateOrderStatus_found (db : OrderDb) (id : Nat) (status : String)
    (now : Int) (o : Order) (h : findOrderByPk db id = some o) :
    (updateOrderStatus db id status now).1 = .okUpdated id status ∧
    findOrderByPk (updateOrderStatus db id status now).2 id =
      some { o with status := status, updatedAt := now } := by
  have hoid : o.id = id := by
    have := List.find?_some h
    simpa [findOrderByPk] using this
  constructor
  · simp [updateOrderStatus, h, hoid]
  · simp only [updateOrderStatus, h]
    exact findOrderByPk_saveOrder db id o
      { o with status := status, updatedAt := now } h hoid

/-- Claim C4. The updateOrderStatus handler answers NotFound exactly when no
order has the requested id (leaving the table unchanged); otherwise, for every
status string whatsoever, it overwrites the status, refreshes updatedAt,
persists, and answers with the updated record's id and status. -/
theorem updateOrderStatus_contract (db : OrderDb) (id : Nat) (status : String)
    (now : Int) :
    ((updateOrderStatus db id status now).1 = .notFound ↔
      findOrderByPk db id = none) ∧
    (findOrderByPk db id = none → (updateOrderStatus db id status now).2 = db) ∧
    (∀ o, findOrderByPk db id = some o →
      (updateOrderStatus db id status now).1 = .okUpdated id status ∧
      findOrderByPk (updateOrderStatus db id status now).2 id =
        some { o with status := status, updatedAt := now }) := by
  refine ⟨?_, ?_, ?_⟩
  · cases h : findOrderByPk db id with
    | none => simp [updateOrderStatus, h]
    | some o => simp [updateOrderStatus, h]
  · intro h
    simp [updateOrderStatus, h]
  · intro o h
    exact updateOrderStatus_found db id status now o h

/-- Witness for C4 on a one-row table. -/
theorem updateOrderStatus_contract_witness :
    findOrderByPk
      (updateOrderStatus
        [{ id := 1, userId := none, items := [], totalAmount := 0,
           status := "pending", orderType := "dine-in", tableNumber := some "2",
           deliveryAddress := none, customerName := "n", customerPhone := "",
           orderNotes := "", createdAt := 0, updatedAt := 0 }] 1 "confirmed" 9).2
      1 =
      some { id := 1, userId := none, items := [], totalAmount := 0,
             status := "confirmed", orderType := "dine-in",
             tableNumber := some "2", deliveryAddress := none,
             customerName := "n", customerPhone := "", orderNotes := "",
             createdAt := 0, updatedAt := 9 } :=
  ((updateOrderStatus_contract
      [{ id := 1, userId := none, items := [], totalAmount := 0,
         status := "pending", orderType := "dine-in", tableNumber := some "2",
         deliveryAddress := none, customerName := "n", customerPhone := "",
         orderNotes := "", createdAt := 0, updatedAt := 0 }] 1 "confirmed"
      9).2.2
    { id := 1, userId := none, items := [], totalAmount := 0,
      status := "pending", orderType := "dine-in", tableNumber := some "2",
      deliveryAddress := none, customerName := "n", customerPhone := "",
      orderNotes := "", createdAt := 0, updatedAt := 0 } (by decide)).2

/-- Claim C8. Setting an existing order to delivered twice succeeds both times
and leaves the same terminal status as doing it once. -/
theorem updateStatus_delivered_idempotent (db : OrderDb) (id : Nat)
    (now1 now2 : Int) (o : Order) (h : findOrderByPk db id = some o) :
    (updateOrderStatus db id "delivered" now1).1 = .okUpdated id "delivered" ∧
    (updateOrderStatus (updateOrderStatus db id "delivered" now1).2 id
        "delivered" now2).1 = .okUpdated id "delivered" ∧
    (findOrderByPk (updateOrderStatus (updateOrderStatus db id "delivered"
        now1).2 id "delivered" now2).2 id).map Order.status =
      some "delivered" ∧
    (findOrderByPk (updateOrderStatus (updateOrderStatus db id "delivered"
        now1).2 id "delivered" now2).2 id).map Order.status =
      (findOrderByPk (updateOrderStatus db id "delivered" now1).2 id).map
        Order.status := by
  obtain ⟨h1ok, h1find⟩ := updateOrderStatus_found db id "delivered" now1 o h
  obtain ⟨h2ok, h2find⟩ := updateOrderStatus_found
    (updateOrderStatus db id "delivered" now1).2 id "delivered" now2 _ h1find
  refine ⟨h1ok, h2ok, ?_, ?_⟩
  · rw [h2find]
    rfl
  · rw [h2find, h1find]
    rfl

/-- Witness for C8 on a one-row table. -/
theorem updateStatus_delivered_idempotent_witness :
    (updateOrderStatus
      (updateOrderStatus
        [{ id := 3, userId := none, items := [], totalAmount := 0,
           status := "ready", orderType := "dine-in", tableNumber := some "4",
           deliveryAddress := none, customerName := "m", customerPhone := "",
           orderNotes := "", createdAt := 0, updatedAt := 0 }] 3 "delivered"
        5).2 3 "delivered" 6).1 = .okUpdated 3 "delivered" :=
  (updateStatus_delivered_idempotent
    [{ id := 3, userId := none, items := [], totalAmount := 0,
       status := "ready", orderType := "dine-in", tableNumber := some "4",
       deliveryAddress := none, customerName := "m", customerPhone := "",
       orderNotes := "", createdAt := 0, updatedAt := 0 }] 3 5 6
    { id := 3, userId := none, items := [], totalAmount := 0,
      status := "ready", orderType := "dine-in", tableNumber := some "4",
      deliveryAddress := none, customerName := "m", customerPhone := "",
      orderNotes := "", createdAt := 0, updatedAt := 0 } (by decide)).2.1

/-- Claim C10. The notification count endpoint answers, for an authenticated
admin, the number of pending orders plus the number of orders created in the
last 24 hours capped at five, alongside both component counts; hence the total
never exceeds pendingOrders + 5. -/
theorem getNotificationCount_contract (db : OrderDb) (adminId : Nat)
    (now : Int) (h : adminId ≠ 0) :
    getNotificationCount db adminId now =
      .ok { count := pendingOrdersCount db + min (recentOrdersCount db now) 5,
            pendingOrders := pendingOrdersCount db,
            recentOrders := recentOrdersCount db now } ∧
    (∀ c, getNotificationCount db adminId now = .ok c →
      c.count = c.pendingOrders + min c.recentOrders 5 ∧
      c.count ≤ c.pendingOrders + 5) := by
  have hb : (adminId == 0) = false := by simpa using h
  constructor
  · simp [getNotificationCount, hb]
  · intro c hc
    simp [getNotificationCount, hb] at hc
    rw [← hc]
    exact ⟨rfl, Nat.add_le_add_left (min_le_right _ 5) _⟩

/-- Witness for C10 on the empty table with admin id 1. -/
theorem getNotificationCount_contract_witness :
    getNotificationCount [] 1 0 =
      .ok { count := pendingOrdersCount [] + min (recentOrdersCount [] 0) 5,
            pendingOrders := pendingOrdersCount [],
            recentOrders := recentOrdersCount [] 0 } :=
  (getNotificationCount_contract [] 1 0 (by decide)).1

/-! Concrete order table for the pagination scenario of claim C9: 25 rows all
matching the empty filter set. -/

def plainOrder (i : Nat) : Order :=
  { id := i + 1, userId := none, items := [], totalAmount := 10,
    status := "pending", orderType := "dine-in", tableNumber := some "1",
    deliveryAddress := none, customerName := "guest", customerPhone := "",
    orderNotes := "", createdAt := (i : Int), updatedAt := (i : Int) }

def db25 : OrderDb := (List.range 25).map plainOrder

def noFilters : OrderFilters :=
  { status := none, orderType := none, dateFrom := none, dateTo := none,
    search := none }

/-- Claim C9. Filtered order listing: the answer carries the total count of
matching rows, hasMore is exactly offset + limit < total, the page is the
sorted matching rows from offset on, at most limit of them, so the page length
is min limit (total − offset); on 25 matching orders, limit 10 offset 0 gives
10 rows with hasMore true, and limit 10 offset 20 gives 5 rows with hasMore
false. -/
theorem getOrdersWithFilters_pagination :
    (∀ (db : OrderDb) (f : OrderFilters) (k : SortKey) (d : SortDir)
       (limit offset : Nat),
      (getOrdersWithFilters db f k d limit offset).total =
        (db.filter (matchesOrderFilters f)).length ∧
      (getOrdersWithFilters db f k d limit offset).hasMore =
        decide (offset + limit < (db.filter (matchesOrderFilters f)).length) ∧
      (getOrdersWithFilters db f k d limit offset).orders =
        ((List.insertionSort (orderRel k d)
          (db.filter (matchesOrderFilters f))).drop offset).take limit ∧
      (getOrdersWithFilters db f k d limit offset).orders.length =
        min limit ((db.filter (matchesOrderFilters f)).length - offset)) ∧
    ((getOrdersWithFilters db25 noFilters .createdAt .desc 10 0).orders.length
        = 10 ∧
     (getOrdersWithFilters db25 noFilters .createdAt .desc 10 0).hasMore
        = true ∧
     (getOrdersWithFilters db25 noFilters .createdAt .desc 10 20).orders.length
        = 5 ∧
     (getOrdersWithFilters db25 noFilters .createdAt .desc 10 20).hasMore
        = false) := by
  constructor
  · intro db f k d limit offset
    refine ⟨rfl, rfl, rfl, ?_⟩
    rw [show (getOrdersWithFilters db f k d limit offset).orders =
      ((List.insertionSort (orderRel k d)
        (db.filter (matchesOrderFilters f))).drop offset).take limit from rfl]
    rw [List.length_take, List.length_drop,
      (List.perm_insertionSort (orderRel k d)
        (db.filter (matchesOrderFilters f))).length_eq]
  · decide

/-- Folding additions starting from an accumulator equals the accumulator plus
the sum of the mapped list. -/
lemma foldl_add_map {α M : Type} [AddCommMonoid M] (g : α → M) :
    ∀ (l : List α) (init : M),
      l.foldl (fun s a => s + g a) init = init + (l.map g).sum := by
  intro l
  induction l with
  | nil => intro init; simp
  | cons a l ih =>
    intro init
    rw [List.foldl_cons, ih, List.map_cons, List.sum_cons, add_assoc]

lemma cartTotal_eq_sum (cartItems : List CartItem) :
    cartTotal cartItems =
      (cartItems.map (fun c => c.price * (c.quantity : Int))).sum := by
  unfold cartTotal convertToRWF
  rw [foldl_add_map (fun c : CartItem => c.price * (c.quantity : Int))
    cartItems 0, zero_add]

/-- Claim C1. Checkout payload invariant: whenever the order modal builds the
POST /user/orders body, its totalAmount equals the sum over its line items of
price × quantity; and a later menu-item price change rewrites only menu rows,
so every stored order — hence its totalAmount — reads back unchanged. -/
theorem order_total_snapshot (userToken : Option String)
    (userData : Option UserData) (tableNumber : Option String)
    (cartItems : List CartItem) (orderNotes : String) :
    (∀ p, handleSubmit userToken userData tableNumber cartItems orderNotes =
        some p →
      p.totalAmount =
        (p.items.map (fun it => it.price * (it.quantity : Int))).sum) ∧
    (∀ (s : AppState) (menuItemId : Nat) (newPrice : Int) (now : Int)
       (oid : Nat),
      findOrderByPk (updateMenuItemPrice s menuItemId newPrice now).orders oid
        = findOrderByPk s.orders oid) := by
  constructor
  · intro p hp
    match userToken, userData, tableNumber with
    | some tok, some u, some t =>
      by_cases hg : (tok == "" || u.name == "" || t == "") = true
      · simp [handleSubmit, hg] at hp
      · have hg2 : (tok == "" || u.name == "" || t == "") = false := by
          simpa using hg
        simp only [handleSubmit, hg2, Bool.false_eq_true, if_false] at hp
        injection hp with hp2
        subst hp2
        show cartTotal cartItems = _
        rw [cartTotal_eq_sum, List.map_map]
        rfl
    | none, _, _ => simp [handleSubmit] at hp
    | some _, none, _ => simp [handleSubmit] at hp
    | some _, some _, none => simp [handleSubmit] at hp
  · intro s menuItemId newPrice now oid
    rfl

/-- Witness for C1: a concrete two-item cart checks out with total 13 equal to
the sum over its snapshotted line items. -/
theorem order_total_snapshot_witness :
    ({ items := [{ id := 1, name := "Coffee", price := 5, quantity := 2,
                   emoji := "c" },
                 { id := 2, name := "Juice", price := 3, quantity := 1,
                   emoji := "j" }],
       totalAmount := 13, customerName := "Alice", customerPhone := "",
       tableNumber := "5", orderNotes := "", orderType := "dine-in" }
       : OrderPayload).totalAmount =
      (({ items := [{ id := 1, name := "Coffee", price := 5, quantity := 2,
                      emoji := "c" },
                    { id := 2, name := "Juice", price := 3, quantity := 1,
                      emoji := "j" }],
          totalAmount := 13, customerName := "Alice", customerPhone := "",
          tableNumber := "5", orderNotes := "", orderType := "dine-in" }
          : OrderPayload).items.map
        (fun it => it.price * (it.quantity : Int))).sum :=
  (order_total_snapshot (some "tok")
      (some { name := "Alice", phone := none }) (some "5")
      [{ id := 1, name := "Coffee", price := 5, quantity := 2, emoji := "c" },
       { id := 2, name := "Juice", price := 3, quantity := 1, emoji := "j" }]
      "").1
    { items := [{ id := 1, name := "Coffee", price := 5, quantity := 2,
                  emoji := "c" },
                { id := 2, name := "Juice", price := 3, quantity := 1,
                  emoji := "j" }],
      totalAmount := 13, customerName := "Alice", customerPhone := "",
      tableNumber := "5", orderNotes := "", orderType := "dine-in" }
    (by decide)

/-! Concrete order set of the top-items scenario (claims C5 and C6): three
delivered orders holding the line items of the spec example, newest first. -/

def c5order (oid : Nat) (cAt : Int) (its : List OrderItem) : Order :=
  { id := oid, userId := none, items := its,
    totalAmount := (its.map (fun it => it.price * (it.quantity : Int))).sum,
    status := "delivered", orderType := "dine-in", tableNumber := some "1",
    deliveryAddress := none, customerName := "guest", customerPhone := "",
    orderNotes := "", createdAt := cAt, updatedAt := cAt }

def c5db : OrderDb :=
  [ c5order 1 30 [{ id := 1, name := "a", price := 5, quantity := 2 }],
    c5order 2 20 [{ id := 1, name := "a", price := 5, quantity := 1 }],
    c5order 3 10 [{ id := 2, name := "b", price := 1, quantity := 5 }] ]

/-- Counterexample for claim C5: ranking the spec example by quantity puts
item 2 (totalQuantity 5) first, not item 1 (totalQuantity 3) — the sort is
descending in the chosen rank key. -/
theorem topItems_quantity_rank_counterexample :
    (getTopItems c5db none none (some "quantity") none 0).map
        (fun a => a.id) = [2, 1] ∧
    ¬ ((getTopItems c5db none none (some "quantity") none 0).map
        (fun a => a.id) = [1, 2]) := by
  constructor
  · decide
  · decide

/-- Claim C5 as amended. On the three example orders, ranking by quantity
yields item 2 first (totalQuantity 5, totalRevenue 5) then item 1
(totalQuantity 3, totalRevenue 15); ranking by revenue yields item 1 (15)
before item 2 (5). -/
theorem topItems_rank_results :
    (getTopItems c5db none none (some "quantity") none 0).map
        (fun a => (a.id, a.totalQuantity, a.totalRevenue)) =
      [(2, 5, 5), (1, 3, 15)] ∧
    (getTopItems c5db none none (some "revenue") none 0).map
        (fun a => (a.id, a.totalQuantity, a.totalRevenue)) =
      [(1, 3, 15), (2, 5, 5)] := by
  constructor
  · decide
  · decide

/-! Aggregation correctness machinery for claim C6: reference sums per item id
over an order set, and the find?-based view of the accumulator. -/

def itemQtySum (orders : List Order) (i : Nat) : Nat :=
  (orders.map (fun o =>
    ((o.items.filter (fun it => it.id == i)).map (fun it => it.quantity)).sum)).sum

def itemRevSum (orders : List Order) (i : Nat) : Int :=
  (orders.map (fun o =>
    ((o.items.filter (fun it => it.id == i)).map
      (fun it => (it.quantity : Int) * it.price)).sum)).sum

def aggQty (aggs : List ItemAgg) (i : Nat) : Nat :=
  match aggs.find? (fun a => a.id == i) with
  | some a => a.totalQuantity
  | none => 0

def aggRev (aggs : List ItemAgg) (i : Nat) : Int :=
  match aggs.find? (fun a => a.id == i) with
  | some a => a.totalRevenue
  | none => 0

/-- What one aggInsert step does to the entry found for a given id. -/
lemma find?_aggInsert (aggs : List ItemAgg) (it : OrderItem) (i : Nat) :
    (aggInsert aggs it).find? (fun a => a.id == i) =
      if it.id = i then
        (match aggs.find? (fun a => a.id == i) with
         | some a => some (aggBump a it)
         | none => some (aggBump (aggNew0 it) it))
      else aggs.find? (fun a => a.id == i) := by
  have hf : ∀ a : ItemAgg,
      (((if a.id == it.id then aggBump a it else a) : ItemAgg).id == i) =
        (a.id == i) := by
    intro a
    by_cases hx : a.id = it.id <;> simp [hx, aggBump]
  by_cases hmem : (aggs.any (fun a => a.id == it.id)) = true
  · have hbase : aggInsert aggs it =
        aggs.map (fun a => if a.id == it.id then aggBump a it else a) := by
      simp only [aggInsert, hmem, if_true]
    rw [hbase, find?_map_invariant _ _ hf]
    by_cases hi : it.id = i
    · rw [if_pos hi]
      cases hfind : aggs.find? (fun a => a.id == i) with
      | none =>
        exfalso
        obtain ⟨a, hal, haid⟩ := List.any_eq_true.mp hmem
        have haid2 : a.id = it.id := by simpa using haid
        have hnone := List.find?_eq_none.mp hfind a hal
        exact hnone (by simp [haid2, hi])
      | some a =>
        have haid : a.id = i := by simpa using List.find?_some hfind
        simp [haid, hi]
    · rw [if_neg hi]
      cases hfind : aggs.find? (fun a => a.id == i) with
      | none => rfl
      | some a =>
        have haid : a.id = i := by simpa using List.find?_some hfind
        have hne : ¬ a.id = it.id := by omega
        simp [hne]
  · have hmem2 : (aggs.any (fun a => a.id == it.id)) = false := by
      simpa using hmem
    have hnone : aggs.find? (fun a => a.id == it.id) = none := by
      rw [List.find?_eq_none]
      intro a hal
      simp only [List.any_eq_false] at hmem2
      simpa using hmem2 a hal
    have hbase : aggInsert aggs it =
        (aggs ++ [aggNew0 it]).map
          (fun a => if a.id == it.id then aggBump a it else a) := by
      simp only [aggInsert, hmem2, Bool.false_eq_true, if_false]
    rw [hbase, find?_map_invariant _ _ hf, List.find?_append]
    by_cases hi : it.id = i
    · have hanone : aggs.find? (fun a => a.id == i) = none := by
        rw [List.find?_eq_none]
        intro a hal
        have := List.find?_eq_none.mp hnone a hal
        simpa [hi] using this
      rw [if_pos hi, hanone]
      simp [aggNew0, hi]
    · have hnew : ¬ ((aggNew0 it).id == i) = true := by
        simp [aggNew0]
        intro h
        exact hi h
      have hsingle : List.find? (fun a => a.id == i) [aggNew0 it] = none := by
        rw [List.find?_eq_none]
        intro x hx
        rw [List.mem_singleton] at hx
        subst hx
        exact hnew
      rw [if_neg hi, hsingle]
      cases hfind : aggs.find? (fun a => a.id == i) with
      | none => rfl
      | some a =>
        have haid : a.id = i := by simpa using List.find?_some hfind
        have hane : ¬ a.id = it.id := by omega
        simp [hane]

lemma aggQty_aggInsert (aggs : List ItemAgg) (it : OrderItem) (i : Nat) :
    aggQty (aggInsert aggs it) i =
      aggQty aggs i + (if it.id = i then it.quantity else 0) := by
  unfold aggQty
  rw [find?_aggInsert]
  by_cases hi : it.id = i
  · rw [if_pos hi, if_pos hi]
    cases hfind : aggs.find? (fun a => a.id == i) with
    | none => simp [aggBump, aggNew0]
    | some a => simp [aggBump]
  · rw [if_neg hi, if_neg hi]
    omega

lemma aggRev_aggInsert (aggs : List ItemAgg) (it : OrderItem) (i : Nat) :
    aggRev (aggInsert aggs it) i =
      aggRev aggs i + (if it.id = i then (it.quantity : Int) * it.price else 0) := by
  unfold aggRev
  rw [find?_aggInsert]
  by_cases hi : it.id = i
  · rw [if_pos hi, if_pos hi]
    cases hfind : aggs.find? (fun a => a.id == i) with
    | none => simp [aggBump, aggNew0]
    | some a => simp [aggBump]
  · rw [if_neg hi, if_neg hi]
    ring

lemma aggQty_foldl (its : List OrderItem) (aggs : List ItemAgg) (i : Nat) :
    aggQty (its.foldl aggInsert aggs) i =
      aggQty aggs i +
        ((its.filter (fun it => it.id == i)).map (fun it => it.quantity)).sum := by
  induction its generalizing aggs with
  | nil => simp
  | cons it rest ih =>
    rw [List.foldl_cons, ih, aggQty_aggInsert, List.filter_cons]
    by_cases hi : it.id = i
    · rw [if_pos hi, if_pos (by simpa using hi), List.map_cons, List.sum_cons]
      omega
    · rw [if_neg hi, if_neg (by simpa using hi)]
      omega

lemma aggRev_foldl (its : List OrderItem) (aggs : List ItemAgg) (i : Nat) :
    aggRev (its.foldl aggInsert aggs) i =
      aggRev aggs i +
        ((its.filter (fun it => it.id == i)).map
          (fun it => (it.quantity : Int) * it.price)).sum := by
  induction its generalizing aggs with
  | nil => simp
  | cons it rest ih =>
    rw [List.foldl_cons, ih, aggRev_aggInsert, List.filter_cons]
    by_cases hi : it.id = i
    · rw [if_pos hi, if_pos (by simpa using hi), List.map_cons, List.sum_cons]
      ring
    · rw [if_neg hi, if_neg (by simpa using hi)]
      ring

lemma aggQty_foldl_orders (orders : List Order) (aggs : List ItemAgg)
    (i : Nat) :
    aggQty (orders.foldl (fun acc o => o.items.foldl aggInsert acc) aggs) i =
      aggQty aggs i + itemQtySum orders i := by
  induction orders generalizing aggs with
  | nil => simp [itemQtySum]
  | cons o rest ih =>
    rw [List.foldl_cons, ih, aggQty_foldl]
    simp only [itemQtySum, List.map_cons, List.sum_cons]
    omega

lemma aggRev_foldl_orders (orders : List Order) (aggs : List ItemAgg)
    (i : Nat) :
    aggRev (orders.foldl (fun acc o => o.items.foldl aggInsert acc) aggs) i =
      aggRev aggs i + itemRevSum orders i := by
  induction orders generalizing aggs with
  | nil => simp [itemRevSum]
  | cons o rest ih =>
    rw [List.foldl_cons, ih, aggRev_foldl]
    simp only [itemRevSum, List.map_cons, List.sum_cons]
    ring

/-- Per-id totals of the whole accumulation. -/
lemma aggQty_aggregateOrders (orders : List Order) (i : Nat) :
    aggQty (aggregateOrders orders) i = itemQtySum orders i := by
  unfold aggregateOrders
  rw [aggQty_foldl_orders]
  simp [aggQty]

lemma aggRev_aggregateOrders (orders : List Order) (i : Nat) :
    aggRev (aggregateOrders orders) i = itemRevSum orders i := by
  unfold aggregateOrders
  rw [aggRev_foldl_orders]
  simp [aggRev]

/-- The id column of the accumulator after one step: unchanged when the id was
present, extended by the new id otherwise. -/
lemma aggInsert_ids (aggs : List ItemAgg) (it : OrderItem) :
    (aggInsert aggs it).map (fun a => a.id) =
      if (aggs.any (fun a => a.id == it.id)) = true then
        aggs.map (fun a => a.id)
      else aggs.map (fun a => a.id) ++ [it.id] := by
  have hgid : ∀ a ∈ aggs,
      ((if a.id == it.id then aggBump a it else a) : ItemAgg).id = a.id := by
    intro a _
    by_cases hx : a.id = it.id <;> simp [aggBump, hx]
  by_cases hmem : (aggs.any (fun a => a.id == it.id)) = true
  · rw [if_pos hmem]
    simp only [aggInsert, hmem, if_true, List.map_map]
    exact List.map_congr_left hgid
  · have hmem2 : (aggs.any (fun a => a.id == it.id)) = false := by simpa using hmem
    rw [if_neg hmem]
    simp only [aggInsert, hmem2, Bool.false_eq_true, if_false, List.map_append,
      List.map_map]
    congr 1
    · exact List.map_congr_left hgid
    · simp [aggBump, aggNew0]

lemma ids_nodup_aggInsert (aggs : List ItemAgg) (it : OrderItem)
    (h : ((aggs.map (fun a => a.id)).Nodup)) :
    (((aggInsert aggs it).map (fun a => a.id)).Nodup) := by
  rw [aggInsert_ids]
  by_cases hmem : (aggs.any (fun a => a.id == it.id)) = true
  · rwa [if_pos hmem]
  · have hmem2 : (aggs.any (fun a => a.id == it.id)) = false := by simpa using hmem
    rw [if_neg hmem]
    have hnotin : it.id ∉ aggs.map (fun a => a.id) := by
      intro hin
      obtain ⟨a, hal, haid⟩ := List.mem_map.mp hin
      have := List.any_eq_false.mp hmem2 a hal
      exact this (by simp [haid])
    simp [List.nodup_append, h, hnotin]

lemma ids_nodup_foldl (its : List OrderItem) (aggs : List ItemAgg)
    (h : ((aggs.map (fun a => a.id)).Nodup)) :
    (((its.foldl aggInsert aggs).map (fun a => a.id)).Nodup) := by
  induction its generalizing aggs with
  | nil => exact h
  | cons it rest ih => exact ih _ (ids_nodup_aggInsert aggs it h)

lemma aggregateOrders_ids_nodup (orders : List Order) :
    (((aggregateOrders orders).map (fun a => a.id)).Nodup) := by
  have key : ∀ (os : List Order) (aggs : List ItemAgg),
      ((aggs.map (fun a => a.id)).Nodup) →
      (((os.foldl (fun acc o => o.items.foldl aggInsert acc) aggs).map
        (fun a => a.id)).Nodup) := by
    intro os
    induction os with
    | nil => intro aggs h; exact h
    | cons o rest ih =>
      intro aggs h
      exact ih _ (ids_nodup_foldl o.items aggs h)
  exact key orders [] (by simp)

/-- In a list with pairwise distinct ids, searching a member's id finds it. -/
lemma find?_of_mem_nodup (l : List ItemAgg)
    (h : ((l.map (fun a => a.id)).Nodup)) (a : ItemAgg) (ha : a ∈ l) :
    l.find? (fun x => x.id == a.id) = some a := by
  induction l with
  | nil => cases ha
  | cons b l ih =>
    rcases List.mem_cons.mp ha with rfl | ha2
    · exact List.find?_cons_of_pos _ (by simp)
    · have h2 : b.id ∉ l.map (fun x => x.id) ∧ (l.map (fun x => x.id)).Nodup := by
        rw [List.map_cons] at h
        exact List.nodup_cons.mp h
      have hne : ¬ (b.id == a.id) = true := by
        intro hbe
        have hmem : a.id ∈ l.map (fun x => x.id) := List.mem_map_of_mem _ ha2
        have hb2 := h2.1
        rw [show b.id = a.id by simpa using hbe] at hb2
        exact hb2 hmem
      rw [@List.find?_cons_of_neg _ (fun x => x.id == a.id) b l hne]
      exact ih h2.2 ha2

/-- Every entry of the accumulation carries, per the aggregated id, the sums
of quantities and of quantity × price across the whole order set. -/
lemma mem_aggregateOrders_totals (orders : List Order) (a : ItemAgg)
    (ha : a ∈ aggregateOrders orders) :
    a.totalQuantity = itemQtySum orders a.id ∧
    a.totalRevenue = itemRevSum orders a.id := by
  have hf := find?_of_mem_nodup (aggregateOrders orders)
    (aggregateOrders_ids_nodup orders) a ha
  constructor
  · have h1 := aggQty_aggregateOrders orders a.id
    unfold aggQty at h1
    rw [hf] at h1
    exact h1
  · have h1 := aggRev_aggregateOrders orders a.id
    unfold aggRev at h1
    rw [hf] at h1
    exact h1

lemma itemQtySum_perm {l1 l2 : List Order} (h : l1.Perm l2) (i : Nat) :
    itemQtySum l1 i = itemQtySum l2 i :=
  List.Perm.sum_eq (h.map _)

lemma itemRevSum_perm {l1 l2 : List Order} (h : l1.Perm l2) (i : Nat) :
    itemRevSum l1 i = itemRevSum l2 i :=
  List.Perm.sum_eq (h.map _)

/-- Claim C6 as amended. For a positively parsed requested limit l, getTopItems
equals the first (min l 50) entries of the per-id aggregation of the filtered
order set sorted descending by the chosen rank key; consequently the result
never exceeds 50 entries, is sorted in the rank relation, and every returned
entry carries the exact quantity and quantity × price sums of its id over the
filtered orders. (A requested limit parsing to 0 or failing to parse falls
back to 5; a negative one reaches slice as a negative end index and can return
more than 50 entries — see the counterexample.) -/
theorem getTopItems_spec (db : OrderDb)
    (daysParam statusParam rankByParam limitParam : Option String) (now : Int)
    (l : Int) (hl : jsParseInt (limitParam.getD "5") = some l)
    (hpos : 0 < l) :
    getTopItems db daysParam statusParam rankByParam limitParam now =
      (List.insertionSort (rankRel (rankByParam.getD "quantity"))
        (aggregateOrders (List.insertionSort (orderRel .createdAt .desc)
          (db.filter (topItemsWhere (daysParam.getD "7")
            (statusParam.getD "delivered") now))))).take (min l 50).toNat ∧
    (getTopItems db daysParam statusParam rankByParam limitParam now).length
      ≤ 50 ∧
    List.Sorted (rankRel (rankByParam.getD "quantity"))
      (getTopItems db daysParam statusParam rankByParam limitParam now) ∧
    (∀ a ∈ getTopItems db daysParam statusParam rankByParam limitParam now,
      a.totalQuantity = itemQtySum
        (db.filter (topItemsWhere (daysParam.getD "7")
          (statusParam.getD "delivered") now)) a.id ∧
      a.totalRevenue = itemRevSum
        (db.filter (topItemsWhere (daysParam.getD "7")
          (statusParam.getD "delivered") now)) a.id) := by
  have hlim : topItemsLim (limitParam.getD "5") = min l 50 := by
    unfold topItemsLim
    rw [hl]
    have hnz : ¬ l = 0 := by omega
    simp [hnz]
  have hres : getTopItems db daysParam statusParam rankByParam limitParam now =
      (List.insertionSort (rankRel (rankByParam.getD "quantity"))
        (aggregateOrders (List.insertionSort (orderRel .createdAt .desc)
          (db.filter (topItemsWhere (daysParam.getD "7")
            (statusParam.getD "delivered") now))))).take (min l 50).toNat := by
    have h0 : getTopItems db daysParam statusParam rankByParam limitParam now =
        jsSliceTo (List.insertionSort (rankRel (rankByParam.getD "quantity"))
          (aggregateOrders (List.insertionSort (orderRel .createdAt .desc)
            (db.filter (topItemsWhere (daysParam.getD "7")
              (statusParam.getD "delivered") now)))))
          (topItemsLim (limitParam.getD "5")) := rfl
    rw [h0, hlim]
    unfold jsSliceTo
    rw [if_neg (by omega)]
  refine ⟨hres, ?_, ?_, ?_⟩
  · rw [hres, List.length_take]
    have h50 : (min l 50).toNat ≤ 50 := by omega
    exact le_trans (min_le_left _ _) h50
  · rw [hres]
    exact List.Pairwise.sublist (List.take_sublist _ _)
      (List.sorted_insertionSort _ _)
  · intro a ha
    rw [hres] at ha
    have ha2 : a ∈ List.insertionSort (rankRel (rankByParam.getD "quantity"))
        (aggregateOrders (List.insertionSort (orderRel .createdAt .desc)
          (db.filter (topItemsWhere (daysParam.getD "7")
            (statusParam.getD "delivered") now)))) :=
      (List.take_sublist _ _).subset ha
    have ha3 := (List.perm_insertionSort _ _).subset ha2
    obtain ⟨hq, hr⟩ := mem_aggregateOrders_totals _ a ha3
    exact ⟨hq.trans (itemQtySum_perm (List.perm_insertionSort _ _) a.id),
      hr.trans (itemRevSum_perm (List.perm_insertionSort _ _) a.id)⟩

/-- Witness for C6 at requested limit 2 on the example orders. -/
theorem getTopItems_spec_witness :
    (getTopItems c5db none none none (some "2") 0).length ≤ 50 :=
  (getTopItems_spec c5db none none none (some "2") 0 2 (by decide)
    (by decide)).2.1

/-! A delivered order whose 52 distinct line items give the aggregation 52
distinct entries, for the limit-cap counterexample. -/

def c6bigOrder : Order :=
  c5order 9 0 ((List.range 52).map
    (fun i => { id := i, name := "x", price := 1, quantity := 1 }))

set_option maxRecDepth 4000 in
/-- Counterexample for claim C6: a requested limit of −1 reaches
Array.prototype.slice as a negative end index, so the call returns 51 of the
52 aggregated entries — more than the claimed hard cap of 50; and a requested
limit of 0 is falsy, falls back to 5, and returns 2 entries instead of the
claimed first min(0, 50) = 0. -/
theorem getTopItems_cap_counterexample :
    ((getTopItems [c6bigOrder] none none none (some "-1") 0).length = 51 ∧
      ¬ ((getTopItems [c6bigOrder] none none none (some "-1") 0).length ≤ 50)) ∧
    ((getTopItems c5db none none none (some "0") 0).length = 2 ∧
      ¬ ((getTopItems c5db none none none (some "0") 0).length =
        (min (0 : Int) 50).toNat)) := by
  refine ⟨⟨?_, ?_⟩, ⟨?_, ?_⟩⟩
  · decide
  · decide
  · decide
  · decide

end Change
